import Mathlib

/-!
Verification of the expression-tree core in `include/swift/AST/Expr.h`:
the `ExprKind` registry, the `Expr` base node, the eight concrete
variants, their constructors, and the `classof`-based checked dispatch.

Embedding conventions:
* `llvm::SMLoc`, `swift::Type *` and `swift::NamedDecl *` are opaque
  handles the core only stores, forwards and compares for identity; each
  is embedded as a single-field structure over `Nat`.
* pointer-to-array fields (`Expr **SubExprs`, `Expr **Elements`,
  `llvm::PointerUnion<Expr*, NamedDecl*> *Elements`) become
  `Option (List _)`, with `none` standing for the null pointer; the
  separately stored element counts are the list lengths.
* a `llvm::PointerUnion<Expr*, NamedDecl*>` element is the tagged choice
  `Expr ⊕ NamedDeclHandle`.
* a C++ read that is out of bounds or through a null pointer has no
  defined result; an operation performing such a read is embedded as an
  `Option`-returning function that yields `none` in exactly those cases.
-/

namespace Swift

/-- Opaque source location handle, embedding `llvm::SMLoc`. -/
structure SMLoc where
  id : Nat
deriving DecidableEq

/-- Opaque handle to a resolved type, embedding the pointee of
`swift::Type *` (the `Ty` field): the core never interprets it, only
stores and compares it. -/
structure TypeRef where
  id : Nat
deriving DecidableEq

/-- Opaque handle to a named declaration, embedding `swift::NamedDecl *`. -/
structure NamedDeclHandle where
  id : Nat
deriving DecidableEq

/-- The kind registry: the closed enumeration `ExprKind` of the eight
variant tags, in source order. -/
inductive ExprKind where
  | IntegerLiteralKind
  | DeclRefExprKind
  | TupleExprKind
  | ApplyExprKind
  | SequenceExprKind
  | BraceExprKind
  | ClosureExprKind
  | BinaryExprKind
deriving DecidableEq

/-- A node of the expression tree: one case per concrete subclass of
`Expr`, carrying exactly the fields that subclass stores (the shared
`Ty` field of the base class appears in every case; the shared `Kind`
field is determined by the case and is read off by `Expr.Kind`). -/
inductive Expr where
  | IntegerLiteral (Val : String) (Loc : SMLoc) (Ty : TypeRef)
  | DeclRefExpr (D : NamedDeclHandle) (Loc : SMLoc) (Ty : TypeRef)
  | TupleExpr (LParenLoc : SMLoc) (SubExprs : Option (List Expr))
      (RParenLoc : SMLoc) (Ty : TypeRef)
  | ApplyExpr (Fn : Expr) (Arg : Expr) (Ty : TypeRef)
  | SequenceExpr (Elements : Option (List Expr)) (Ty : TypeRef)
  | BraceExpr (LBLoc : SMLoc)
      (Elements : Option (List (Expr ⊕ NamedDeclHandle)))
      (MissingSemi : Bool) (RBLoc : SMLoc) (Ty : TypeRef)
  | ClosureExpr (Input : Expr) (Ty : TypeRef)
  | BinaryExpr (LHS : Expr) (Fn : NamedDeclHandle) (OpLoc : SMLoc)
      (RHS : Expr) (Ty : TypeRef)

/-- The base-class field `Expr::Kind`: the tag each subclass constructor
passes to the `Expr` base constructor (declared `const ExprKind Kind`
in the source, so it is fixed for the lifetime of the node). -/
def Expr.Kind : Expr → ExprKind
  | .IntegerLiteral .. => .IntegerLiteralKind
  | .DeclRefExpr .. => .DeclRefExprKind
  | .TupleExpr .. => .TupleExprKind
  | .ApplyExpr .. => .ApplyExprKind
  | .SequenceExpr .. => .SequenceExprKind
  | .BraceExpr .. => .BraceExprKind
  | .ClosureExpr .. => .ClosureExprKind
  | .BinaryExpr .. => .BinaryExprKind

/-- The base-class field `Expr::Ty`, the resolved type of the node. -/
def Expr.Ty : Expr → TypeRef
  | .IntegerLiteral _ _ t => t
  | .DeclRefExpr _ _ t => t
  | .TupleExpr _ _ _ t => t
  | .ApplyExpr _ _ t => t
  | .SequenceExpr _ t => t
  | .BraceExpr _ _ _ _ t => t
  | .ClosureExpr _ t => t
  | .BinaryExpr _ _ _ _ t => t

/-- The `TupleExpr` fields `SubExprs` and `NumSubExprs`, viewed on a
generic node: the stored sub-expression array when the node is a
TupleExpr (`none` also when the stored array pointer is null), `none`
on every other variant. -/
def Expr.tupleSubExprs : Expr → Option (List Expr)
  | .TupleExpr _ s _ _ => s
  | _ => none

/-- The `SequenceExpr` fields `Elements` and `NumElements`, viewed on a
generic node. -/
def Expr.seqElements : Expr → Option (List Expr)
  | .SequenceExpr els _ => els
  | _ => none

/-- The `BraceExpr` fields `Elements` and `NumElements`, viewed on a
generic node. -/
def Expr.braceElements : Expr → Option (List (Expr ⊕ NamedDeclHandle))
  | .BraceExpr _ els _ _ _ => els
  | _ => none

/-- The `BraceExpr` field `MissingSemi` (true when the last expression
of the brace is missing a semicolon after it), viewed on a generic
node. -/
def Expr.braceMissingSemi : Expr → Option Bool
  | .BraceExpr _ _ ms _ _ => some ms
  | _ => none

/-- The `IntegerLiteral` constructor: stores `Val`, `Loc` and the
caller-supplied `Ty` verbatim. -/
def mkIntegerLiteral (V : String) (L : SMLoc) (Ty : TypeRef) : Expr :=
  .IntegerLiteral V L Ty

/-- The `DeclRefExpr` constructor: stores the declaration handle, the
location and the caller-supplied `Ty` verbatim. -/
def mkDeclRefExpr (d : NamedDeclHandle) (L : SMLoc) (Ty : TypeRef) : Expr :=
  .DeclRefExpr d L Ty

/-- The `TupleExpr` constructor: stores the parenthesis locations, the
sub-expression array (possibly null) and the caller-supplied `Ty`
verbatim; it performs no check of its own. -/
def mkTupleExpr (lparenloc : SMLoc) (subexprs : Option (List Expr))
    (rparenloc : SMLoc) (Ty : TypeRef) : Expr :=
  .TupleExpr lparenloc subexprs rparenloc Ty

/-- The `ApplyExpr` constructor: stores `Fn`, `Arg` and the
caller-supplied `Ty` verbatim. -/
def mkApplyExpr (fn arg : Expr) (Ty : TypeRef) : Expr :=
  .ApplyExpr fn arg Ty

/-- The `SequenceExpr` constructor: it passes
`elements[numElements - 1]->Ty` to the base constructor before storing
the element array. That read has no defined result when the array
pointer is null or the element count is zero, so the embedding yields
`none` in exactly those cases; otherwise the node is built with the
type of the last element. -/
def mkSequenceExpr (elements : Option (List Expr)) : Option Expr :=
  match elements with
  | none => none
  | some es =>
    match es.getLast? with
    | none => none
    | some last => some (.SequenceExpr (some es) last.Ty)

/-- The `BraceExpr` constructor: stores the brace locations, the element
array (possibly null), the `MissingSemi` flag and the caller-supplied
`Ty` verbatim; it performs no check and derives nothing. -/
def mkBraceExpr (lbloc : SMLoc)
    (elements : Option (List (Expr ⊕ NamedDeclHandle)))
    (missingsemi : Bool) (rbloc : SMLoc) (Ty : TypeRef) : Expr :=
  .BraceExpr lbloc elements missingsemi rbloc Ty

/-- The `ClosureExpr` constructor: stores `Input` and the externally
supplied result type verbatim. -/
def mkClosureExpr (input : Expr) (ResultTy : TypeRef) : Expr :=
  .ClosureExpr input ResultTy

/-- The `BinaryExpr` constructor: stores the operands, the operator
declaration handle, the operator location and the caller-supplied `Ty`
verbatim. -/
def mkBinaryExpr (lhs : Expr) (fn : NamedDeclHandle) (oploc : SMLoc)
    (rhs : Expr) (Ty : TypeRef) : Expr :=
  .BinaryExpr lhs fn oploc rhs Ty

/-- Selection of one of eight values by tag: the shape every exhaustive
dispatch over the closed registry takes, one branch per tag in source
order. -/
def ExprKind.select (k : ExprKind) (h1 h2 h3 h4 h5 h6 h7 h8 : α) : α :=
  match k with
  | .IntegerLiteralKind => h1
  | .DeclRefExprKind => h2
  | .TupleExprKind => h3
  | .ApplyExprKind => h4
  | .SequenceExprKind => h5
  | .BraceExprKind => h6
  | .ClosureExprKind => h7
  | .BinaryExprKind => h8

/-- The eight tags of the registry, in source order. -/
def ExprKind.all : List ExprKind :=
  [.IntegerLiteralKind, .DeclRefExprKind, .TupleExprKind, .ApplyExprKind,
   .SequenceExprKind, .BraceExprKind, .ClosureExprKind, .BinaryExprKind]

/-- `IntegerLiteral::classof(const Expr *E)`: `E->Kind == IntegerLiteralKind`. -/
def IntegerLiteral.classof (E : Expr) : Bool :=
  decide (E.Kind = .IntegerLiteralKind)

/-- `DeclRefExpr::classof(const Expr *E)`: `E->Kind == DeclRefExprKind`. -/
def DeclRefExpr.classof (E : Expr) : Bool :=
  decide (E.Kind = .DeclRefExprKind)

/-- `TupleExpr::classof(const Expr *E)`: `E->Kind == TupleExprKind`. -/
def TupleExpr.classof (E : Expr) : Bool :=
  decide (E.Kind = .TupleExprKind)

/-- `ApplyExpr::classof(const Expr *E)`: `E->Kind == ApplyExprKind`. -/
def ApplyExpr.classof (E : Expr) : Bool :=
  decide (E.Kind = .ApplyExprKind)

/-- `SequenceExpr::classof(const Expr *E)`: `E->Kind == SequenceExprKind`. -/
def SequenceExpr.classof (E : Expr) : Bool :=
  decide (E.Kind = .SequenceExprKind)

/-- `BraceExpr::classof(const Expr *E)`: `E->Kind == BraceExprKind`. -/
def BraceExpr.classof (E : Expr) : Bool :=
  decide (E.Kind = .BraceExprKind)

/-- `ClosureExpr::classof(const Expr *E)`: `E->Kind == ClosureExprKind`. -/
def ClosureExpr.classof (E : Expr) : Bool :=
  decide (E.Kind = .ClosureExprKind)

/-- `BinaryExpr::classof(const Expr *E)`: `E->Kind == BinaryExprKind`. -/
def BinaryExpr.classof (E : Expr) : Bool :=
  decide (E.Kind = .BinaryExprKind)

/-- The variant test `isVariant<T>(node)`: dispatch by tag to the
`classof` predicate of that variant (this is how `llvm::isa` consults
the per-class `classof` functions of the source). -/
def Expr.isVariant (k : ExprKind) (E : Expr) : Bool :=
  ExprKind.select k IntegerLiteral.classof DeclRefExpr.classof
    TupleExpr.classof ApplyExpr.classof SequenceExpr.classof
    BraceExpr.classof ClosureExpr.classof BinaryExpr.classof E

/-- Modelled from the spec: `tryCast<T>(node) → T or absent`, the total
narrowing (`llvm::dyn_cast` over the `classof` predicates; the dyn_cast
template itself is library code outside this repository). It returns
the node itself, narrowed, when the kind test succeeds, and absent
otherwise. -/
def Expr.tryCast (k : ExprKind) (E : Expr) : Option Expr :=
  cond (Expr.isVariant k E) (some E) none

/-- Modelled from the spec: the exhaustive visit of §4.3 — given one
handler per kind, dispatch on the node and invoke the handler of that
kind; the source provides only the tags and the `classof` tests, the
visit operation itself is missing from it. -/
def Expr.visit (hInt hRef hTup hApp hSeq hBrace hClos hBin : Expr → α)
    (E : Expr) : α :=
  match E with
  | .IntegerLiteral .. => hInt E
  | .DeclRefExpr .. => hRef E
  | .TupleExpr .. => hTup E
  | .ApplyExpr .. => hApp E
  | .SequenceExpr .. => hSeq E
  | .BraceExpr .. => hBrace E
  | .ClosureExpr .. => hClos E
  | .BinaryExpr .. => hBin E

/-- Modelled from the spec: the designated unit/void type handle of the
external type system (the source stores type handles opaquely and
defines no unit type itself). -/
def unitTy : TypeRef := ⟨2⟩

/-- A sample type handle standing for `Int`. -/
def intTy : TypeRef := ⟨0⟩

/-- A sample type handle standing for `String`, distinct from `intTy`
and from `unitTy`. -/
def stringTy : TypeRef := ⟨1⟩

/-- A sample source location. -/
def sampleLoc : SMLoc := ⟨0⟩

/-- A sample node: the literal `4` with resolved type `intTy`. -/
def lit4 : Expr := mkIntegerLiteral "4" sampleLoc intTy

/-- A one-element tuple whose stored type differs from the type of its
sole element: `(4)` with element type `intTy` but stored type
`stringTy`. -/
def tupleCex : Expr := mkTupleExpr sampleLoc (some [lit4]) sampleLoc stringTy

/-- A brace whose last element is the expression `4` (type `intTy`),
with `MissingSemi = true` (no semicolon after the last expression) but
stored type `stringTy`. -/
def braceCex : Expr :=
  mkBraceExpr sampleLoc (some [Sum.inl lit4]) true sampleLoc stringTy

/-- Claim C1: a SequenceExpr constructed from a non-empty element
sequence `[e1..en]` (n ≥ 1, expressed as: the sequence has a last
element `last`) is produced, and its resolved type equals the resolved
type of `last`, exactly as `elements[numElements - 1]->Ty` in the
constructor. -/
theorem seq_resolvedType_eq_last (es : List Expr) (last : Expr)
    (h : es.getLast? = some last) :
    mkSequenceExpr (some es) = some (.SequenceExpr (some es) last.Ty) := by
  simp [mkSequenceExpr, h]

/-- Witness for C1 at the concrete one-element sequence `[lit4]`. -/
theorem seq_resolvedType_eq_last_witness :
    [lit4].getLast? = some lit4 ∧
      mkSequenceExpr (some [lit4]) =
        some (.SequenceExpr (some [lit4]) lit4.Ty) :=
  ⟨rfl, seq_resolvedType_eq_last [lit4] lit4 rfl⟩

/-- Claim C2: constructing a SequenceExpr with zero elements fails to
produce a node (the read `elements[numElements - 1]` is impossible);
construction succeeds exactly on a non-null, non-empty element
sequence, so no SequenceExpr with an empty element sequence exists. -/
theorem seq_empty_not_constructible :
    mkSequenceExpr (some []) = none ∧
      mkSequenceExpr none = none ∧
      ∀ o : Option (List Expr),
        (mkSequenceExpr o).isSome =
          o.elim false (fun es => !es.isEmpty) := by
  refine ⟨rfl, rfl, ?_⟩
  intro o
  match o with
  | none => rfl
  | some [] => rfl
  | some (a :: t) =>
    cases hgl : (a :: t).getLast? with
    | none => simp at hgl
    | some l => simp [mkSequenceExpr, hgl]

/-- Claim C3 counterexample: `tupleCex` is a TupleExpr with exactly one
sub-expression `lit4`, yet its resolved type (`stringTy`, stored
verbatim from the constructor argument) differs from the resolved type
of its element (`intTy`): the decay rule does not hold of every
constructible one-element TupleExpr. -/
theorem tuple_decay_not_enforced_cex :
    tupleCex.Kind = .TupleExprKind ∧
      tupleCex.tupleSubExprs = some [lit4] ∧
      lit4.Ty = intTy ∧
      tupleCex.Ty = stringTy ∧
      tupleCex.Ty ≠ lit4.Ty :=
  ⟨rfl, rfl, rfl, rfl, by decide⟩

/-- Claim C3 amended: the TupleExpr constructor stores the
caller-supplied type handle verbatim and does not enforce the decay
rule; a one-element TupleExpr has resolved type equal to the type of
its sole element exactly when the caller supplies that type. -/
theorem tuple_ctor_stores_type_verbatim :
    ∀ (lp rp : SMLoc) (e : Expr) (ty : TypeRef),
      (mkTupleExpr lp (some [e]) rp ty).Ty = ty ∧
        (mkTupleExpr lp (some [e]) rp ty).tupleSubExprs = some [e] ∧
        (mkTupleExpr lp (some [e]) rp e.Ty).Ty = e.Ty :=
  fun _ _ _ _ => ⟨rfl, rfl, rfl⟩

/-- Claim C4 counterexample: `braceCex` is a BraceExpr whose last (and
only) element is the expression `lit4` of type `intTy`, with
`MissingSemi = true` (no semicolon after the last expression, i.e. the
trailing-semicolon flag of the spec is false), yet its resolved type is
`stringTy`, differing both from the type of the trailing expression and
from the unit type: the brace typing rule does not hold of every
constructible BraceExpr. -/
theorem brace_typing_not_enforced_cex :
    braceCex.Kind = .BraceExprKind ∧
      braceCex.braceMissingSemi = some true ∧
      braceCex.braceElements = some [Sum.inl lit4] ∧
      lit4.Ty = intTy ∧
      braceCex.Ty = stringTy ∧
      braceCex.Ty ≠ lit4.Ty ∧
      braceCex.Ty ≠ unitTy :=
  ⟨rfl, rfl, rfl, rfl, rfl, by decide, by decide⟩

/-- Claim C4 amended: the BraceExpr constructor stores the
caller-supplied type handle, the element array and the `MissingSemi`
flag verbatim and derives nothing; the brace typing rule holds exactly
when the caller supplies the type it dictates — the unit type when the
last expression is followed by a semicolon (`MissingSemi = false`), the
type of the trailing expression when it is not (`MissingSemi = true`). -/
theorem brace_ctor_stores_type_verbatim :
    ∀ (lb rb : SMLoc) (els : Option (List (Expr ⊕ NamedDeclHandle)))
      (ms : Bool) (ty : TypeRef) (e : Expr)
      (front : List (Expr ⊕ NamedDeclHandle)),
      (mkBraceExpr lb els ms rb ty).Ty = ty ∧
        (mkBraceExpr lb els ms rb ty).braceMissingSemi = some ms ∧
        (mkBraceExpr lb els ms rb ty).braceElements = els ∧
        (mkBraceExpr lb els false rb unitTy).Ty = unitTy ∧
        (mkBraceExpr lb (some (front ++ [Sum.inl e])) true rb e.Ty).Ty =
          e.Ty :=
  fun _ _ _ _ _ _ _ => ⟨rfl, rfl, rfl, rfl, rfl⟩

/-- Claim C8 counterexample: the TupleExpr constructor performs no
validation and produces a node whose sub-expression array handle is
null. -/
theorem tuple_null_subexprs_accepted_cex :
    (mkTupleExpr sampleLoc none sampleLoc intTy).Kind = .TupleExprKind ∧
      (mkTupleExpr sampleLoc none sampleLoc intTy).tupleSubExprs = none :=
  ⟨rfl, rfl⟩

/-- Claim C8 amended: the SequenceExpr constructor cannot produce a node
from a null element array (its element read fails), and every
SequenceExpr it does produce stores a non-null array; the TupleExpr
constructor, however, rejects nothing and stores a null sub-expression
array verbatim. -/
theorem null_sequence_handling :
    mkSequenceExpr none = none ∧
      (∀ o : Option (List Expr),
        (mkSequenceExpr o).all (fun n => n.seqElements.isSome) = true) ∧
      ∀ (lp rp : SMLoc) (ty : TypeRef),
        (mkTupleExpr lp none rp ty).tupleSubExprs = none := by
  refine ⟨rfl, ?_, fun _ _ _ => rfl⟩
  intro o
  match o with
  | none => rfl
  | some es =>
    cases hgl : es.getLast? with
    | none => simp [mkSequenceExpr, hgl]
    | some l => simp [mkSequenceExpr, hgl, Expr.seqElements]

/-- Claim C5: for every node `n` and every tag `k` of the eight kinds,
the variant test `isVariant k n` is true exactly when the kind tag of
`n` equals `k` (each `classof` is the comparison `E->Kind == TKind`),
and the total narrowing `tryCast k n` is present under exactly that
same condition, returning the node itself narrowed, and absent
otherwise. -/
theorem isVariant_tryCast_characterization :
    ∀ (k : ExprKind) (n : Expr),
      Expr.isVariant k n = decide (n.Kind = k) ∧
        (Expr.tryCast k n).isSome = Expr.isVariant k n ∧
        Expr.tryCast k n = (if n.Kind = k then some n else none) := by
  intro k n
  have h1 : Expr.isVariant k n = decide (n.Kind = k) := by
    cases k <;> rfl
  refine ⟨h1, ?_, ?_⟩
  · cases hb : Expr.isVariant k n <;> simp [Expr.tryCast, hb]
  · by_cases hk : n.Kind = k
    · simp [Expr.tryCast, h1, hk]
    · simp [Expr.tryCast, h1, hk]

/-- Claim C6: the registry is a closed enumeration of exactly eight
distinct tags; for every node exactly one of the eight variant tests
holds (its count over the registry is one); and the exhaustive visit,
given one handler per kind, invokes exactly the handler selected by the
kind tag of the node. -/
theorem kind_registry_closed_exhaustive_visit :
    ExprKind.all.length = 8 ∧
      ExprKind.all.Nodup ∧
      (∀ k : ExprKind, k ∈ ExprKind.all) ∧
      (∀ E : Expr,
        ExprKind.all.countP (fun k => Expr.isVariant k E) = 1) ∧
      ∀ (α : Type) (h1 h2 h3 h4 h5 h6 h7 h8 : Expr → α) (E : Expr),
        Expr.visit h1 h2 h3 h4 h5 h6 h7 h8 E =
          ExprKind.select E.Kind h1 h2 h3 h4 h5 h6 h7 h8 E := by
  refine ⟨rfl, by decide, fun k => by cases k <;> decide, ?_, ?_⟩
  · intro E
    cases E <;> rfl
  · intro α h1 h2 h3 h4 h5 h6 h7 h8 E
    cases E <;> rfl

/-- Claim C7: every constructor sets the kind tag of the node it builds
to the tag of its own variant (the field is declared `const` in the
source and the interface exposes no operation that writes it; the one
node-returning operation, the narrowing, returns the node with its kind
unchanged). -/
theorem kind_set_once_at_construction :
    (∀ V L t, (mkIntegerLiteral V L t).Kind = .IntegerLiteralKind) ∧
      (∀ d L t, (mkDeclRefExpr d L t).Kind = .DeclRefExprKind) ∧
      (∀ lp s rp t, (mkTupleExpr lp s rp t).Kind = .TupleExprKind) ∧
      (∀ f a t, (mkApplyExpr f a t).Kind = .ApplyExprKind) ∧
      (∀ o, (mkSequenceExpr o).all
        (fun s => decide (s.Kind = .SequenceExprKind)) = true) ∧
      (∀ lb els ms rb t,
        (mkBraceExpr lb els ms rb t).Kind = .BraceExprKind) ∧
      (∀ i t, (mkClosureExpr i t).Kind = .ClosureExprKind) ∧
      (∀ l f ol r t, (mkBinaryExpr l f ol r t).Kind = .BinaryExprKind) ∧
      ∀ k E, (Expr.tryCast k E).all
        (fun r => decide (r.Kind = E.Kind)) = true := by
  refine ⟨fun _ _ _ => rfl, fun _ _ _ => rfl, fun _ _ _ _ => rfl,
    fun _ _ _ => rfl, ?_, fun _ _ _ _ _ => rfl, fun _ _ => rfl,
    fun _ _ _ _ _ => rfl, ?_⟩
  · intro o
    match o with
    | none => rfl
    | some es =>
      cases hgl : es.getLast? with
      | none => simp [mkSequenceExpr, hgl]
      | some l => simp [mkSequenceExpr, hgl, Expr.Kind]
  · intro k E
    cases hb : Expr.isVariant k E <;> simp [Expr.tryCast, hb]

/-- Claim C10: every constructor other than the SequenceExpr one builds
the node from its arguments verbatim — in particular the resolved type
is the caller-supplied handle unchanged — performing no derivation or
validation of its own. -/
theorem ctors_store_fields_verbatim :
    (∀ V L t, mkIntegerLiteral V L t = Expr.IntegerLiteral V L t ∧
      (mkIntegerLiteral V L t).Ty = t) ∧
      (∀ d L t, mkDeclRefExpr d L t = Expr.DeclRefExpr d L t ∧
        (mkDeclRefExpr d L t).Ty = t) ∧
      (∀ lp s rp t, mkTupleExpr lp s rp t = Expr.TupleExpr lp s rp t ∧
        (mkTupleExpr lp s rp t).Ty = t) ∧
      (∀ f a t, mkApplyExpr f a t = Expr.ApplyExpr f a t ∧
        (mkApplyExpr f a t).Ty = t) ∧
      (∀ lb els ms rb t,
        mkBraceExpr lb els ms rb t = Expr.BraceExpr lb els ms rb t ∧
          (mkBraceExpr lb els ms rb t).Ty = t) ∧
      (∀ i t, mkClosureExpr i t = Expr.ClosureExpr i t ∧
        (mkClosureExpr i t).Ty = t) ∧
      ∀ l f ol r t, mkBinaryExpr l f ol r t = Expr.BinaryExpr l f ol r t ∧
        (mkBinaryExpr l f ol r t).Ty = t :=
  ⟨fun _ _ _ => ⟨rfl, rfl⟩, fun _ _ _ => ⟨rfl, rfl⟩,
    fun _ _ _ _ => ⟨rfl, rfl⟩, fun _ _ _ => ⟨rfl, rfl⟩,
    fun _ _ _ _ _ => ⟨rfl, rfl⟩, fun _ _ => ⟨rfl, rfl⟩,
    fun _ _ _ _ _ => ⟨rfl, rfl⟩⟩

end Swift
